import Mathlib

/-!
Shallow embedding of the editable-grid widget of termpysui
(src/termpysui/screens/configs.py and src/termpysui/modals/pyconfig_add.py).

A table row carries the displayed 1-based label (the source stores it as a
Text that is parsed back with int(str(label))) and the list of cell strings.
-/

/-- A data-table row: displayed numeric label plus the cell strings. -/
structure TRow where
  label : Nat
  cells : List String
deriving DecidableEq

/-- The row storage of an EditableDataTable, in display order. -/
abbrev Table := List TRow

/-- Embeds DataTable.get_cell_at for in-range coordinates (the source raises
on an invalid coordinate; every use below is in range). -/
def cell_at : Table → Nat → Nat → String
  | [], _, _ => ""
  | row :: _, 0, c => row.cells.getD c ""
  | _ :: rs, Nat.succ i, c => cell_at rs i c

/-- Row lookup by display position, used to state where updates land. -/
def row_at : Table → Nat → Option TRow
  | [], _ => none
  | row :: _, 0 => some row
  | _ :: rs, Nat.succ i => row_at rs i

/-- Embeds DataTable.update_cell_at: replace the cell at (row, column). -/
def update_cell_at : Table → Nat → Nat → String → Table
  | [], _, _, _ => []
  | row :: rs, 0, c, v => { row with cells := row.cells.set c v } :: rs
  | row :: rs, Nat.succ i, c, v => row :: update_cell_at rs i c v

/-- Embeds EditableDataTable.row_with_value: the rows (in display order)
whose cell in the given column equals the given value. -/
def row_with_value (t : Table) (row_cell : Nat) (value : String) : List TRow :=
  t.filter (fun r => r.cells.getD row_cell "" == value)

/-- Number of rows whose marker cell (column 1) equals "Yes". -/
def countYes (t : Table) : Nat :=
  (row_with_value t 1 "Yes").length

/-- Labels are the consecutive numbers k, k+1, ... as assigned by the
watch_configuration population loops (1-based from the start of the table). -/
def labels_from : Nat → Table → Bool
  | _, [] => true
  | k, row :: rs => (row.label == k) && labels_from (k + 1) rs

/-- Embeds ConfigRow._switch_active.  The result is the updated table and the
new active coordinate; none models the two crash paths of the source:
row_with_value(1, "Yes")[0] raising IndexError when no row is marked "Yes",
and move_cursor dereferencing new_active_coord (still None) when neither
branch assigned it — which happens when the edited row's old value was "Yes"
but fewer than two rows currently show "No". -/
def _switch_active (t : Table) (r c : Nat) (old_value new_value : String) :
    Option (Table × Nat × Nat) :=
  match (row_with_value t 1 "Yes").head? with
  | none => none
  | some prev_y_row =>
    if old_value = "Yes" then
      match row_with_value t 1 "No" with
      | n0 :: _ :: _ =>
          some (update_cell_at (update_cell_at t r c new_value) (n0.label - 1) 1 old_value,
                n0.label - 1, 1)
      | _ => none
    else if new_value = "Yes" then
      some (update_cell_at (update_cell_at t (prev_y_row.label - 1) 1 old_value) r c new_value,
            r, c)
    else none

/-- The two-row grid of the demote scenario: alpha active, beta inactive. -/
def t_demote : Table := [⟨1, ["alpha", "Yes"]⟩, ⟨2, ["beta", "No"]⟩]

/-- The two-row grid of the promote scenario: alpha inactive, beta active. -/
def t_promote : Table := [⟨1, ["alpha", "No"]⟩, ⟨2, ["beta", "Yes"]⟩]

/-- Outcome of one interaction step of the EditWidgetScreen modal: either
the screen stays open showing the validation failure descriptions, or it is
dismissed with the value handed back to the awaiting edit_cell worker. -/
inductive EditorStep
  | stayOpen (failures : List String)
  | close (result : Option String)
deriving DecidableEq

/-- Embeds EditWidgetScreen.on_input_submitted.  When the validation result
is invalid the Pretty widget shows the failure descriptions and the screen
stays open; otherwise the submitted text is cast to the original value's
type (value_cast, returning none on ValueError) and the screen is dismissed
with the cast value, or with None when the cast raised. -/
def on_input_submitted (value_cast : String → Option String) (is_valid : Bool)
    (failures : List String) (text : String) : EditorStep :=
  if is_valid then
    match value_cast text with
    | some v => EditorStep.close (some v)
    | none => EditorStep.close none
  else EditorStep.stayOpen failures

/-- Embeds EditWidgetScreen._on_key for the escape key: dismiss with None. -/
def escape_key : EditorStep := EditorStep.close none

/-- Embeds EditableDataTable.CellValueChange: the event payload. -/
structure CellEvent where
  row : Nat
  col : Nat
  old_value : String
  new_value : String
deriving DecidableEq

/-- Embeds EditableDataTable.edit_cell after the editor screen resolved:
the table is left untouched, and a CellValueChange event carrying the old
cell value and the submitted value is posted whenever the editor resolved
with a non-None value (the source performs no equality test here). -/
def edit_cell (t : Table) (r c : Nat) (editor_result : Option String) :
    Table × Option CellEvent :=
  match editor_result with
  | none => (t, none)
  | some v => (t, some ⟨r, c, cell_at t r c, v⟩)

/-- Embeds ConfigGroup.validate_group_name: accept when the submitted value
equals the pre-edit cell value at the cursor, reject when it collides with
an existing group name, accept otherwise. -/
def validate_group_name (pre_value : String) (group_names : List String)
    (in_value : String) : Bool :=
  if pre_value = in_value then true
  else if in_value ∈ group_names then false
  else true

/-- Embeds ConfigRow.has_config over the registry of registered rows, each
contributing its (possibly unset) configuration: the loop returns on its
first iteration, with False (none) when the first row's configuration is
unset and with that configuration otherwise. -/
def has_config {α : Type} : List (Option α) → Option α
  | [] => none
  | row :: _ => row

/-- Embeds the NewGroup dataclass of pyconfig_add. -/
structure NewGroup where
  name : String
  active : Bool
deriving DecidableEq

/-- Embeds the NewProfile dataclass of pyconfig_add. -/
structure NewProfile where
  name : String
  url : String
  active : Bool
deriving DecidableEq

/-- Fields an AddProfile OK press may move focus to. -/
inductive FocusTarget
  | nameField
  | urlField
deriving DecidableEq

/-- Embeds AddProfile.on_ok: an empty profile-name input only receives
focus (there is no else on that check), then an empty URL input receives
focus and blocks dismissal; otherwise the dialog dismisses with a
NewProfile built from the current field values. -/
def addprofile_on_ok (name_value url_value : String) (make_active : Bool) :
    List FocusTarget × Option NewProfile :=
  let name_focus := if name_value = "" then [FocusTarget.nameField] else []
  if url_value = "" then (name_focus ++ [FocusTarget.urlField], none)
  else (name_focus, some ⟨name_value, url_value, make_active⟩)

/-- Embeds the domain state a ConfigGroup controller mutates: the group
names of the configuration model and the active-group pointer. -/
structure CfgModel where
  group_names : List String
  group_active : String
deriving DecidableEq

/-- Embeds a pysui profile as seen by ConfigProfile: name and URL. -/
structure Profile where
  profile_name : String
  url : String
deriving DecidableEq

/-- Embeds the ProfileGroup state a ConfigProfile controller mutates. -/
structure ProfileGroupModel where
  profiles : List Profile
  using_profile : String
deriving DecidableEq

/-- Embeds ConfigGroup.add_group after the AddGroup dialog resolved: the
source reads the result and, when it is not None, executes pass — the
result is discarded and neither the model nor the table changes. -/
def add_group (m : CfgModel) (t : Table) (dialog_result : Option NewGroup) :
    CfgModel × Table :=
  match dialog_result with
  | some _ => (m, t)
  | none => (m, t)

/-- Embeds ConfigProfile.add_profile after the AddProfile dialog resolved:
identical stub, the non-None result is discarded. -/
def add_profile (g : ProfileGroupModel) (t : Table)
    (dialog_result : Option NewProfile) : ProfileGroupModel × Table :=
  match dialog_result with
  | some _ => (g, t)
  | none => (g, t)

/-- Observable side effects of a cell_change handler, in program order. -/
inductive SideEffect
  | mutate
  | save
deriving DecidableEq

/-- Embeds model.get_group(old).group_name = new: rename the first group
matching the old name, none when no group matches (the source raises). -/
def rename_group_first : List String → String → String → Option (List String)
  | [], _, _ => none
  | g :: gs, old_name, new_name =>
    if g = old_name then some (new_name :: gs)
    else (rename_group_first gs old_name new_name).map (g :: ·)

/-- Embeds get_profile(old).profile_name = new on the profile list. -/
def rename_profile_first : List Profile → String → String → Option (List Profile)
  | [], _, _ => none
  | p :: ps, old_name, new_name =>
    if p.profile_name = old_name then some ({ p with profile_name := new_name } :: ps)
    else (rename_profile_first ps old_name new_name).map (p :: ·)

/-- Embeds get_profile(name).url = new on the profile list. -/
def set_url_first : List Profile → String → String → Option (List Profile)
  | [], _, _ => none
  | p :: ps, pname, new_url =>
    if p.profile_name = pname then some ({ p with url := new_url } :: ps)
    else (set_url_first ps pname new_url).map (p :: ·)

/-- Embeds ConfigGroup.cell_change.  Events with equal old and new value are
ignored entirely.  A Name change renames the group, retargets the
active-group pointer when it named the old group, and rewrites the cell; an
Active change runs _switch_active and points group_active at the name cell
left of the returned coordinate.  Each mutating branch is followed by
configuration.save(), recorded in the action trace; none models the
exceptions escaping get_group or _switch_active. -/
def cell_change_group (m : CfgModel) (t : Table) (field : String) (r c : Nat)
    (old_value new_value : String) : Option (CfgModel × Table × List SideEffect) :=
  if old_value = new_value then some (m, t, [])
  else if field = "Name" then
    match rename_group_first m.group_names old_value new_value with
    | none => none
    | some names =>
      let active := if m.group_active = old_value then new_value else m.group_active
      some ({ group_names := names, group_active := active },
            update_cell_at t r c new_value, [SideEffect.mutate, SideEffect.save])
  else if field = "Active" then
    match _switch_active t r c old_value new_value with
    | none => none
    | some (t2, coord) =>
      some ({ m with group_active := cell_at t2 coord.1 (coord.2 - 1) }, t2,
            [SideEffect.mutate, SideEffect.save])
  else some (m, t, [SideEffect.save])

/-- Embeds ConfigProfile.cell_change, with the additional URL column: the
profile named by the cell two columns left of the edited one receives the
new URL.  Trace discipline is as in cell_change_group. -/
def cell_change_profile (g : ProfileGroupModel) (t : Table) (field : String)
    (r c : Nat) (old_value new_value : String) :
    Option (ProfileGroupModel × Table × List SideEffect) :=
  if old_value = new_value then some (g, t, [])
  else if field = "Name" then
    match rename_profile_first g.profiles old_value new_value with
    | none => none
    | some ps =>
      let uprof := if g.using_profile = old_value then new_value else g.using_profile
      some ({ profiles := ps, using_profile := uprof },
            update_cell_at t r c new_value, [SideEffect.mutate, SideEffect.save])
  else if field = "Active" then
    match _switch_active t r c old_value new_value with
    | none => none
    | some (t2, coord) =>
      some ({ g with using_profile := cell_at t2 coord.1 (coord.2 - 1) }, t2,
            [SideEffect.mutate, SideEffect.save])
  else if field = "URL" then
    match set_url_first g.profiles (cell_at t r (c - 2)) new_value with
    | none => none
    | some ps =>
      some ({ g with profiles := ps },
            update_cell_at t r c new_value, [SideEffect.mutate, SideEffect.save])
  else some (g, t, [SideEffect.save])

/-- Concrete handler output used by the C8 witness: renaming group "a" to
"b" in a one-group configuration. -/
def c8_out : CfgModel × Table × List SideEffect :=
  (⟨["b"], "b"⟩, update_cell_at t_demote 0 0 "b", [SideEffect.mutate, SideEffect.save])

/-- One user marker edit: the edited row and the value the choice editor
returned ("Yes" or "No" in every instantiated case). -/
structure MarkerEdit where
  row : Nat
  newVal : String
deriving DecidableEq

/-- An accepted marker-column edit as in the claim: the row exists, the old
value (read from the table, as edit_dialog does) differs from the submitted
one, and both lie in the Yes/No enumeration of the choice editor. -/
def accepted_edit (t : Table) (e : MarkerEdit) : Bool :=
  decide (e.row < t.length) && !(cell_at t e.row 1 == e.newVal) &&
    ((cell_at t e.row 1 == "Yes") || (cell_at t e.row 1 == "No")) &&
    ((e.newVal == "Yes") || (e.newVal == "No"))

/-- The table after the Active-Row Coordinator handled one accepted edit;
on the crash paths of _switch_active the handler aborts before any table
update, leaving the table as it was. -/
def apply_edit (t : Table) (e : MarkerEdit) : Table :=
  match _switch_active t e.row 1 (cell_at t e.row 1) e.newVal with
  | some (t2, _) => t2
  | none => t

/-- Folding a whole sequence of user edits; edits that are not accepted
(equal values, row out of range) never reach the coordinator. -/
def apply_edits (t : Table) : List MarkerEdit → Table
  | [] => t
  | e :: es => apply_edits (if accepted_edit t e then apply_edit t e else t) es

/-- C1: on the grid [("alpha","Yes"),("beta","No")], the accepted edit of row
0's marker from "Yes" to "No" does not flip row 1 to "Yes": the source's
guard demands strictly more than one "No" row before promoting an
alternative, so with exactly one alternative present it changes no marker and
then crashes (AttributeError on the None coordinate in move_cursor), modelled
as none.  The single alternative row is exhibited by the second conjunct and
the initial exclusivity by the third. -/
theorem switch_active_demote_two_rows_crashes :
    _switch_active t_demote 0 1 "Yes" "No" = none ∧
    row_with_value t_demote 1 "No" = [⟨2, ["beta", "No"]⟩] ∧
    countYes t_demote = 1 := by decide

/-- C5: on the grid [("alpha","No"),("beta","Yes")], the accepted edit of row
0's marker from "No" to "Yes" flips row 1's marker to "No", sets row 0's
marker to "Yes", and returns the edited row's coordinate (0, 1); the
resulting active set is exactly the alpha row. -/
theorem promote_row_flips_previous_active :
    _switch_active t_promote 0 1 "No" "Yes"
      = some ([⟨1, ["alpha", "Yes"]⟩, ⟨2, ["beta", "No"]⟩], 0, 1) ∧
    row_with_value [⟨1, ["alpha", "Yes"]⟩, ⟨2, ["beta", "No"]⟩] 1 "Yes"
      = [⟨1, ["alpha", "Yes"]⟩] := by decide

/-- C3 counterexample: submitting a value equal to the cell's current value
does emit a CellValueChange event — on the demote-scenario grid, resubmitting
"alpha" (the current content of cell (0,0)) makes edit_cell post an event,
refuting the claim that no event is emitted in that case. -/
theorem equal_submit_posts_event :
    cell_at t_demote 0 0 = "alpha" ∧
    (edit_cell t_demote 0 0 (some "alpha")).2 ≠ none := by decide

/-- C3 amended: edit_cell posts a CellValueChange event whenever the editor
resolves with a non-None value, even one equal to the current cell value;
the idempotence lives one layer up, in the Section Controller, whose
cell_change ignores an event with equal old and new values: the table, the
domain model, the row labels and the save trace are all untouched. -/
theorem equal_submit_event_then_controller_noop (t : Table) (r c : Nat)
    (v : String) (m : CfgModel) (g : ProfileGroupModel) (field : String)
    (hv : cell_at t r c = v) :
    (edit_cell t r c (some v)).2 = some ⟨r, c, v, v⟩ ∧
    cell_change_group m t field r c v v = some (m, t, []) ∧
    cell_change_profile g t field r c v v = some (g, t, []) := by
  refine ⟨?_, ?_, ?_⟩
  · simp [edit_cell, hv]
  · simp [cell_change_group]
  · simp [cell_change_profile]

/-- C3 amended, witness at a concrete input: resubmitting "alpha" into cell
(0,0) of the demote grid posts the event yet leaves the controller state
unchanged. -/
theorem equal_submit_event_then_controller_noop_witness :
    (edit_cell t_demote 0 0 (some "alpha")).2 = some ⟨0, 0, "alpha", "alpha"⟩ ∧
    cell_change_group ⟨["alpha", "beta"], "alpha"⟩ t_demote "Name" 0 0 "alpha" "alpha"
      = some (⟨["alpha", "beta"], "alpha"⟩, t_demote, []) ∧
    cell_change_profile ⟨[⟨"alpha", "http://a"⟩], "alpha"⟩ t_demote "Name" 0 0 "alpha" "alpha"
      = some (⟨[⟨"alpha", "http://a"⟩], "alpha"⟩, t_demote, []) :=
  equal_submit_event_then_controller_noop t_demote 0 0 "alpha"
    ⟨["alpha", "beta"], "alpha"⟩ ⟨[⟨"alpha", "http://a"⟩], "alpha"⟩ "Name" (by decide)

/-- C4: when the inline editor is cancelled with escape, or when every
validator passed but casting the submitted text to the original value's type
raised ValueError, the editor dismisses with None; consequently edit_cell
posts no CellValueChange event and the table — hence every cell value, the
row count, and the active set — is unchanged. -/
theorem cancel_or_cast_failure_changes_nothing (value_cast : String → Option String)
    (failures : List String) (text : String) (t : Table) (r c : Nat)
    (res : EditorStep)
    (h : res = escape_key ∨
         (res = on_input_submitted value_cast true failures text ∧
          value_cast text = none)) :
    res = EditorStep.close none ∧
    edit_cell t r c none = (t, none) ∧
    countYes (edit_cell t r c none).1 = countYes t := by
  refine ⟨?_, rfl, rfl⟩
  rcases h with h | ⟨h, hcast⟩
  · simpa [escape_key] using h
  · simp [on_input_submitted, hcast] at h
    exact h

/-- C4 witness: both hypothesis shapes at concrete inputs — the escape key,
and a validator-passing submission whose cast fails (int("abc")). -/
theorem cancel_or_cast_failure_changes_nothing_witness :
    escape_key = EditorStep.close none ∧
    edit_cell t_demote 0 1 none = (t_demote, none) ∧
    countYes (edit_cell t_demote 0 1 none).1 = countYes t_demote :=
  cancel_or_cast_failure_changes_nothing (fun _ => none) [] "abc" t_demote 0 1
    escape_key (Or.inl rfl)

/-- C6: the group uniqueness validator accepts a submission equal to the
pre-edit cell value, rejects a differing submission that collides with an
existing group name, and accepts any other submission; on a validation
failure the edit dialog shows the failure descriptions and stays open, so
nothing is dismissed and edit_cell posts no CellValueChange event. -/
theorem rename_collision_validator_behaviour (pre_value in_value : String)
    (group_names : List String) (value_cast : String → Option String)
    (failures : List String) (text : String) (t : Table) (r c : Nat) :
    (pre_value = in_value → validate_group_name pre_value group_names in_value = true) ∧
    (pre_value ≠ in_value → in_value ∈ group_names →
        validate_group_name pre_value group_names in_value = false) ∧
    (pre_value ≠ in_value → in_value ∉ group_names →
        validate_group_name pre_value group_names in_value = true) ∧
    on_input_submitted value_cast false failures text = EditorStep.stayOpen failures ∧
    (edit_cell t r c none).2 = none := by
  refine ⟨?_, ?_, ?_, rfl, rfl⟩
  · intro h
    simp [validate_group_name, h]
  · intro h hmem
    simp [validate_group_name, h, hmem]
  · intro h hmem
    simp [validate_group_name, h, hmem]

/-- C6 witness: a rename of "stage" to the existing name "prod" is rejected,
resubmitting the unchanged name "prod" is accepted, and the failing
submission leaves the dialog open with its failure descriptions. -/
theorem rename_collision_validator_behaviour_witness :
    validate_group_name "prod" ["prod", "dev"] "prod" = true ∧
    validate_group_name "stage" ["prod", "dev"] "prod" = false ∧
    on_input_submitted (fun s => some s) false ["Group name not unique."] "prod"
      = EditorStep.stayOpen ["Group name not unique."] := by
  refine ⟨?_, ?_, ?_⟩
  · exact (rename_collision_validator_behaviour "prod" "prod" ["prod", "dev"]
      (fun s => some s) [] "prod" t_demote 0 0).1 rfl
  · exact (rename_collision_validator_behaviour "stage" "prod" ["prod", "dev"]
      (fun s => some s) [] "prod" t_demote 0 0).2.1 (by decide) (by decide)
  · exact (rename_collision_validator_behaviour "stage" "prod" ["prod", "dev"]
      (fun s => some s) ["Group name not unique."] "prod" t_demote 0 0).2.2.2.1

/-- C7: the Add actions are stubs.  When the AddGroup dialog resolves with a
non-null NewGroup marked active, add_group discards it: no duplicate
validation runs, no row is appended, the active pointer and the grid are
bit-identical — contradicting the specified append-and-activate behaviour.
The same holds for add_profile. -/
theorem add_action_discards_result :
    add_group ⟨["grp"], "grp"⟩ t_demote (some ⟨"newgrp", true⟩)
      = (⟨["grp"], "grp"⟩, t_demote) ∧
    (add_group ⟨["grp"], "grp"⟩ t_demote (some ⟨"newgrp", true⟩)).2.length
      = t_demote.length ∧
    add_profile ⟨[⟨"grp", "http://a"⟩], "grp"⟩ t_demote
        (some ⟨"newprof", "http://b", true⟩)
      = (⟨[⟨"grp", "http://a"⟩], "grp"⟩, t_demote) := by decide

/-- C9: has_config returns during the first loop iteration — on a registry
whose first registered row carries configuration, that configuration is
returned; when the first row's configuration is unset, False is returned;
either way the later-registered rows are never inspected, so the result is
invariant under replacing the tail. -/
theorem has_config_first_registered {α : Type} (row : Option α)
    (rest rest2 : List (Option α)) :
    has_config (row :: rest) = row ∧
    has_config (row :: rest) = has_config (row :: rest2) := ⟨rfl, rfl⟩

/-- C10: in AddProfile's OK handler a non-empty URL always dismisses the
dialog with a NewProfile built from the current field values; an empty
profile name only moves focus to the name field and does not prevent the
dismissal, so a NewProfile with an empty name reaches the caller. -/
theorem addprofile_ok_empty_name_still_dismisses (name_value url_value : String)
    (make_active : Bool) (h : url_value ≠ "") :
    (addprofile_on_ok name_value url_value make_active).2
      = some ⟨name_value, url_value, make_active⟩ ∧
    (name_value = "" →
      (addprofile_on_ok name_value url_value make_active).1 = [FocusTarget.nameField]) := by
  constructor
  · simp [addprofile_on_ok, h]
  · intro hn
    simp [addprofile_on_ok, h, hn]

/-- C10 witness: with an empty name and URL "http://x" the dialog dismisses
with NewProfile("", "http://x", active), focusing only the name field. -/
theorem addprofile_ok_empty_name_still_dismisses_witness :
    (addprofile_on_ok "" "http://x" true).2 = some ⟨"", "http://x", true⟩ ∧
    ("" = "" → (addprofile_on_ok "" "http://x" true).1 = [FocusTarget.nameField]) :=
  addprofile_ok_empty_name_still_dismisses "" "http://x" true (by decide)

/-- C8: for every CellValueChange whose old value differs from its new one,
a completing cell_change handler performs exactly the trace
[mutate, save] for each of its mutating columns — the domain mutation comes
first and configuration.save() is invoked afterwards, exactly once. -/
theorem cell_change_mutates_then_saves (field old_value new_value : String)
    (hne : old_value ≠ new_value) :
    (∀ m t r c out, (field = "Name" ∨ field = "Active") →
        cell_change_group m t field r c old_value new_value = some out →
        out.2.2 = [SideEffect.mutate, SideEffect.save]) ∧
    (∀ g t r c out, (field = "Name" ∨ field = "Active" ∨ field = "URL") →
        cell_change_profile g t field r c old_value new_value = some out →
        out.2.2 = [SideEffect.mutate, SideEffect.save]) := by
  constructor
  · intro m t r c out hf hsome
    rcases hf with hf | hf
    · subst hf
      simp only [cell_change_group, if_neg hne, if_pos rfl] at hsome
      rcases hrn : rename_group_first m.group_names old_value new_value with _ | names
      · rw [hrn] at hsome
        simp at hsome
      · rw [hrn] at hsome
        simp at hsome
        rw [← hsome]
    · subst hf
      by_cases hnm : ("Active" : String) = "Name"
      · simp at hnm
      · simp only [cell_change_group, if_neg hne, if_neg hnm, if_pos rfl] at hsome
        rcases hsw : _switch_active t r c old_value new_value with _ | pair
        · rw [hsw] at hsome
          simp at hsome
        · rw [hsw] at hsome
          rcases pair with ⟨t2, coord⟩
          simp at hsome
          rw [← hsome]
  · intro g t r c out hf hsome
    rcases hf with hf | hf | hf
    · subst hf
      simp only [cell_change_profile, if_neg hne, if_pos rfl] at hsome
      rcases hrn : rename_profile_first g.profiles old_value new_value with _ | ps
      · rw [hrn] at hsome
        simp at hsome
      · rw [hrn] at hsome
        simp at hsome
        rw [← hsome]
    · subst hf
      by_cases hnm : ("Active" : String) = "Name"
      · simp at hnm
      · simp only [cell_change_profile, if_neg hne, if_neg hnm, if_pos rfl] at hsome
        rcases hsw : _switch_active t r c old_value new_value with _ | pair
        · rw [hsw] at hsome
          simp at hsome
        · rw [hsw] at hsome
          rcases pair with ⟨t2, coord⟩
          simp at hsome
          rw [← hsome]
    · subst hf
      by_cases hnm : ("URL" : String) = "Name"
      · simp at hnm
      · by_cases hac : ("URL" : String) = "Active"
        · simp at hac
        · simp only [cell_change_profile, if_neg hne, if_neg hnm, if_neg hac,
            if_pos rfl] at hsome
          rcases hsu : set_url_first g.profiles (cell_at t r (c - 2)) new_value with _ | ps
          · rw [hsu] at hsome
            simp at hsome
          · rw [hsu] at hsome
            simp at hsome
            rw [← hsome]

/-- C8 witness: the rename of group "a" to "b" completes with the trace
[mutate, save], obtained from the theorem at that concrete input. -/
theorem cell_change_mutates_then_saves_witness :
    c8_out.2.2 = [SideEffect.mutate, SideEffect.save] :=
  (cell_change_mutates_then_saves "Name" "a" "b" (by decide)).1
    ⟨["a"], "a"⟩ t_demote 0 0 c8_out (Or.inl rfl) (by decide)

theorem update_length (t : Table) (i c : Nat) (v : String) :
    (update_cell_at t i c v).length = t.length := by
  induction t generalizing i with
  | nil => rfl
  | cons a rs ih =>
    cases i with
    | zero => rfl
    | succ j => simp [update_cell_at, ih j]

theorem labels_update (t : Table) (k i c : Nat) (v : String) :
    labels_from k (update_cell_at t i c v) = labels_from k t := by
  induction t generalizing k i with
  | nil => rfl
  | cons a rs ih =>
    cases i with
    | zero => rfl
    | succ j => simp [update_cell_at, labels_from, ih (k + 1) j]

theorem wide_update (t : Table) (i c : Nat) (v : String)
    (hw : ∀ r ∈ t, 2 ≤ r.cells.length) :
    ∀ r ∈ update_cell_at t i c v, 2 ≤ r.cells.length := by
  induction t generalizing i with
  | nil => intro r hr; cases hr
  | cons a rs ih =>
    cases i with
    | zero =>
      intro r hr
      rcases List.mem_cons.mp hr with h | h
      · subst h
        simpa [List.length_set] using hw a (List.mem_cons_self _ _)
      · exact hw r (List.mem_cons_of_mem _ h)
    | succ j =>
      intro r hr
      rcases List.mem_cons.mp hr with h | h
      · subst h
        exact hw _ (List.mem_cons_self _ _)
      · exact ih j (fun x hx => hw x (List.mem_cons_of_mem _ hx)) r h

theorem row_at_lt (t : Table) (i : Nat) (r : TRow) (h : row_at t i = some r) :
    i < t.length := by
  induction t generalizing i with
  | nil => cases h
  | cons a rs ih =>
    cases i with
    | zero => simp
    | succ j => simpa using Nat.succ_lt_succ (ih j h)

theorem cell_at_row_at (t : Table) (i c : Nat) (r : TRow)
    (h : row_at t i = some r) : cell_at t i c = r.cells.getD c "" := by
  induction t generalizing i with
  | nil => cases h
  | cons a rs ih =>
    cases i with
    | zero =>
      simp [row_at] at h
      subst h
      rfl
    | succ j => exact ih j h

theorem cell_at_update_ne (t : Table) (i j c c2 : Nat) (v : String) (h : j ≠ i) :
    cell_at (update_cell_at t i c v) j c2 = cell_at t j c2 := by
  induction t generalizing i j with
  | nil => rfl
  | cons a rs ih =>
    cases i with
    | zero =>
      cases j with
      | zero => exact absurd rfl h
      | succ j2 => rfl
    | succ i2 =>
      cases j with
      | zero => rfl
      | succ j2 => exact ih i2 j2 (fun hh => h (by rw [hh]))

theorem getD_set_self (l : List String) (i : Nat) (v : String) (h : i < l.length) :
    (l.set i v).getD i "" = v := by
  induction l generalizing i with
  | nil => simp at h
  | cons a as ih =>
    cases i with
    | zero => rfl
    | succ j =>
      have hj : j < as.length := by simpa using h
      simpa using ih j hj

theorem countYes_cons (row : TRow) (rs : Table) :
    countYes (row :: rs)
      = (if row.cells.getD 1 "" = "Yes" then 1 else 0) + countYes rs := by
  cases hb : (row.cells.getD 1 "" == "Yes") with
  | false =>
    have h2 : ¬ row.cells.getD 1 "" = "Yes" := by
      intro hh
      rw [hh] at hb
      simp at hb
    simp only [countYes, row_with_value]
    rw [List.filter_cons, hb, if_neg Bool.false_ne_true, if_neg h2]
    omega
  | true =>
    have h2 : row.cells.getD 1 "" = "Yes" := by
      have hb2 := hb
      rwa [beq_iff_eq] at hb2
    simp only [countYes, row_with_value]
    rw [List.filter_cons, hb, if_pos rfl, if_pos h2, List.length_cons]
    omega

theorem countYes_update (t : Table) :
    ∀ (i : Nat) (v : String), i < t.length → (∀ r ∈ t, 2 ≤ r.cells.length) →
      countYes (update_cell_at t i 1 v) + (if cell_at t i 1 = "Yes" then 1 else 0)
        = countYes t + (if v = "Yes" then 1 else 0) := by
  induction t with
  | nil => intro i v hi _; simp at hi
  | cons row rs ih =>
    intro i v hi hw
    cases i with
    | zero =>
      have hwr : 2 ≤ row.cells.length := hw row (List.mem_cons_self _ _)
      have hset : (row.cells.set 1 v).getD 1 "" = v := getD_set_self _ 1 v (by omega)
      have hupd : update_cell_at (row :: rs) 0 1 v
          = { row with cells := row.cells.set 1 v } :: rs := rfl
      have hcell : cell_at (row :: rs) 0 1 = row.cells.getD 1 "" := rfl
      rw [hupd, countYes_cons, countYes_cons, hcell]
      have hproj : ({ row with cells := row.cells.set 1 v } : TRow).cells
          = row.cells.set 1 v := rfl
      rw [hproj, hset]
      by_cases h1 : v = "Yes" <;> by_cases h2 : row.cells.getD 1 "" = "Yes" <;>
        simp [h1, h2] <;> omega
    | succ j =>
      have hj : j < rs.length := by simpa using hi
      have hw2 : ∀ r ∈ rs, 2 ≤ r.cells.length :=
        fun r hr => hw r (List.mem_cons_of_mem _ hr)
      have hupd : update_cell_at (row :: rs) (j + 1) 1 v
          = row :: update_cell_at rs j 1 v := rfl
      have hcell : cell_at (row :: rs) (j + 1) 1 = cell_at rs j 1 := rfl
      rw [hupd, countYes_cons, countYes_cons, hcell]
      have := ih j v hj hw2
      omega

theorem head_row_with_value_mem (t : Table) (col : Nat) (v : String) (r : TRow)
    (h : (row_with_value t col v).head? = some r) :
    r ∈ t ∧ r.cells.getD col "" = v := by
  have hmem : r ∈ row_with_value t col v := by
    cases hf : row_with_value t col v with
    | nil => rw [hf] at h; cases h
    | cons a l =>
      rw [hf] at h
      simp at h
      subst h
      exact List.mem_cons_self _ _
  unfold row_with_value at hmem
  have hm := List.mem_filter.mp hmem
  exact ⟨hm.1, by simpa using hm.2⟩

theorem mem_row_with_value (t : Table) (col : Nat) (v : String) (r : TRow)
    (h : r ∈ row_with_value t col v) :
    r ∈ t ∧ r.cells.getD col "" = v := by
  unfold row_with_value at h
  have hm := List.mem_filter.mp h
  exact ⟨hm.1, by simpa using hm.2⟩

theorem labels_mem (t : Table) :
    ∀ (k : Nat) (r : TRow), labels_from k t = true → r ∈ t →
      k ≤ r.label ∧ row_at t (r.label - k) = some r := by
  induction t with
  | nil => intro k r _ hr; cases hr
  | cons a rs ih =>
    intro k r hl hr
    rw [labels_from, Bool.and_eq_true, beq_iff_eq] at hl
    rcases List.mem_cons.mp hr with h | h
    · subst h
      have h0 : r.label - k = 0 := by omega
      rw [h0]
      exact ⟨by omega, rfl⟩
    · obtain ⟨h1, h2⟩ := ih (k + 1) r hl.2 h
      have h3 : r.label - k = (r.label - (k + 1)) + 1 := by omega
      rw [h3]
      exact ⟨by omega, h2⟩

theorem switch_active_promote_eq (t : Table) (r c : Nat) (oldV newV : String)
    (y : TRow) (hy : (row_with_value t 1 "Yes").head? = some y)
    (hold : oldV ≠ "Yes") (hnew : newV = "Yes") :
    _switch_active t r c oldV newV
      = some (update_cell_at (update_cell_at t (y.label - 1) 1 oldV) r c newV,
              r, c) := by
  unfold _switch_active
  rw [hy]
  simp [hold, hnew]

theorem switch_active_demote_eq (t : Table) (r c : Nat) (oldV newV : String)
    (y n0 n1 : TRow) (ns : List TRow)
    (hy : (row_with_value t 1 "Yes").head? = some y)
    (hn : row_with_value t 1 "No" = n0 :: n1 :: ns)
    (hold : oldV = "Yes") :
    _switch_active t r c oldV newV
      = some (update_cell_at (update_cell_at t r c newV) (n0.label - 1) 1 oldV,
              n0.label - 1, 1) := by
  unfold _switch_active
  rw [hy, hn]
  simp [hold]

theorem switch_active_demote_skip (t : Table) (r c : Nat) (oldV newV : String)
    (y : TRow) (hy : (row_with_value t 1 "Yes").head? = some y)
    (hn : (row_with_value t 1 "No").length ≤ 1) (hold : oldV = "Yes") :
    _switch_active t r c oldV newV = none := by
  unfold _switch_active
  rw [hy]
  subst hold
  rcases hl : row_with_value t 1 "No" with _ | ⟨a, _ | ⟨b, l2⟩⟩
  · simp
  · simp
  · rw [hl] at hn
    simp at hn

theorem apply_edit_eq_some (t : Table) (e : MarkerEdit) (t2 : Table) (p : Nat × Nat)
    (h : _switch_active t e.row 1 (cell_at t e.row 1) e.newVal = some (t2, p)) :
    apply_edit t e = t2 := by
  unfold apply_edit
  rw [h]

theorem apply_edit_eq_none (t : Table) (e : MarkerEdit)
    (h : _switch_active t e.row 1 (cell_at t e.row 1) e.newVal = none) :
    apply_edit t e = t := by
  unfold apply_edit
  rw [h]

theorem apply_edit_preserves (t : Table) (e : MarkerEdit)
    (hl : labels_from 1 t = true)
    (hw : ∀ r ∈ t, 2 ≤ r.cells.length)
    (hc : countYes t = 1)
    (ha : accepted_edit t e = true) :
    countYes (apply_edit t e) = 1 ∧ labels_from 1 (apply_edit t e) = true ∧
    (∀ r ∈ apply_edit t e, 2 ≤ r.cells.length) ∧
    (apply_edit t e).length = t.length := by
  have ha2 := ha
  simp only [accepted_edit, Bool.and_eq_true, Bool.or_eq_true, decide_eq_true_eq,
    Bool.not_eq_true', beq_eq_false_iff_ne, beq_iff_eq, ne_eq] at ha2
  obtain ⟨⟨⟨hlt, hneq⟩, hold2⟩, hnew2⟩ := ha2
  have hc2 : (row_with_value t 1 "Yes").length = 1 := hc
  obtain ⟨y, hfy⟩ := List.length_eq_one.mp hc2
  have hy : (row_with_value t 1 "Yes").head? = some y := by rw [hfy]; rfl
  have hymem := head_row_with_value_mem t 1 "Yes" y hy
  rcases hold2 with holdY | holdN
  · have hnewNotY : ¬ e.newVal = "Yes" := fun h => hneq (by rw [holdY, h])
    cases hn : row_with_value t 1 "No" with
    | nil =>
      have hnone := switch_active_demote_skip t e.row 1 (cell_at t e.row 1)
        e.newVal y hy (by rw [hn]; simp) holdY
      rw [apply_edit_eq_none t e hnone]
      exact ⟨hc, hl, hw, rfl⟩
    | cons n0 l =>
      cases l with
      | nil =>
        have hnone := switch_active_demote_skip t e.row 1 (cell_at t e.row 1)
          e.newVal y hy (by rw [hn]; simp) holdY
        rw [apply_edit_eq_none t e hnone]
        exact ⟨hc, hl, hw, rfl⟩
      | cons n1 ns =>
        have heq := switch_active_demote_eq t e.row 1 (cell_at t e.row 1)
          e.newVal y n0 n1 ns hy hn holdY
        have happ := apply_edit_eq_some t e _ _ heq
        rw [holdY] at happ
        have hn0mem : n0 ∈ row_with_value t 1 "No" := by
          rw [hn]; exact List.mem_cons_self _ _
        have hn0 := mem_row_with_value t 1 "No" n0 hn0mem
        obtain ⟨hlab, hrowat⟩ := labels_mem t 1 n0 hl hn0.1
        have hi0lt : n0.label - 1 < t.length := row_at_lt t _ n0 hrowat
        have hcell0 : cell_at t (n0.label - 1) 1 = "No" := by
          rw [cell_at_row_at t _ 1 n0 hrowat]; exact hn0.2
        have hner : ¬ (n0.label - 1 = e.row) := by
          intro h
          have h2 := holdY
          rw [← h, hcell0] at h2
          exact absurd h2 (by decide)
        have hstep1 := countYes_update t e.row e.newVal hlt hw
        rw [holdY, hc] at hstep1
        simp [hnewNotY] at hstep1
        have hl1 : labels_from 1 (update_cell_at t e.row 1 e.newVal) = true := by
          rw [labels_update]; exact hl
        have hw1 := wide_update t e.row 1 e.newVal hw
        have hlen1 : (update_cell_at t e.row 1 e.newVal).length = t.length :=
          update_length t e.row 1 e.newVal
        have hcell01 : cell_at (update_cell_at t e.row 1 e.newVal) (n0.label - 1) 1
            = "No" := by
          rw [cell_at_update_ne t e.row (n0.label - 1) 1 1 e.newVal hner]
          exact hcell0
        have hstep2 := countYes_update (update_cell_at t e.row 1 e.newVal)
          (n0.label - 1) "Yes" (by rw [hlen1]; exact hi0lt) hw1
        rw [hcell01] at hstep2
        simp at hstep2
        rw [happ]
        refine ⟨by omega, ?_, ?_, ?_⟩
        · rw [labels_update, labels_update]; exact hl
        · exact wide_update _ _ _ _ hw1
        · rw [update_length, update_length]
  · have hnewY : e.newVal = "Yes" := by
      rcases hnew2 with h | h
      · exact h
      · exact absurd (by rw [holdN, h]) hneq
    have holdNotY : ¬ cell_at t e.row 1 = "Yes" := by
      rw [holdN]; decide
    have heq := switch_active_promote_eq t e.row 1 (cell_at t e.row 1)
      e.newVal y hy holdNotY hnewY
    have happ := apply_edit_eq_some t e _ _ heq
    rw [holdN] at happ
    obtain ⟨hylab, hyrow⟩ := labels_mem t 1 y hl hymem.1
    have hiylt : y.label - 1 < t.length := row_at_lt t _ y hyrow
    have hcelly : cell_at t (y.label - 1) 1 = "Yes" := by
      rw [cell_at_row_at t _ 1 y hyrow]; exact hymem.2
    have hner : ¬ (e.row = y.label - 1) := by
      intro h
      have h2 := holdN
      rw [h, hcelly] at h2
      exact absurd h2 (by decide)
    have hstep1 := countYes_update t (y.label - 1) "No" hiylt hw
    rw [hcelly, hc] at hstep1
    simp at hstep1
    have hw1 := wide_update t (y.label - 1) 1 "No" hw
    have hlen1 : (update_cell_at t (y.label - 1) 1 "No").length = t.length :=
      update_length t (y.label - 1) 1 "No"
    have hcellr : cell_at (update_cell_at t (y.label - 1) 1 "No") e.row 1 = "No" := by
      rw [cell_at_update_ne t (y.label - 1) e.row 1 1 "No" hner]
      exact holdN
    have hstep2 := countYes_update (update_cell_at t (y.label - 1) 1 "No")
      e.row e.newVal (by rw [hlen1]; exact hlt) hw1
    rw [hcellr, hnewY] at hstep2
    simp at hstep2
    rw [happ]
    refine ⟨?_, ?_, ?_, ?_⟩
    · rw [hnewY]; omega
    · rw [labels_update, labels_update]; exact hl
    · exact wide_update _ _ _ _ hw1
    · rw [update_length, update_length]

theorem apply_edits_preserves (es : List MarkerEdit) :
    ∀ (t : Table), labels_from 1 t = true → (∀ r ∈ t, 2 ≤ r.cells.length) →
      countYes t = 1 → countYes (apply_edits t es) = 1 := by
  induction es with
  | nil => intro t _ _ hc; exact hc
  | cons e es ih =>
    intro t hl hw hc
    show countYes (apply_edits (if accepted_edit t e then apply_edit t e else t) es) = 1
    by_cases h : accepted_edit t e = true
    · rw [if_pos h]
      obtain ⟨h1, h2, h3, _⟩ := apply_edit_preserves t e hl hw hc h
      exact ih _ h2 h3 h1
    · rw [if_neg h]
      exact ih t hl hw hc

/-- C2: exclusivity invariant.  For every non-empty grid whose marker column
contains exactly one "Yes" row — with the position-consistent 1-based labels
and at-least-two-column rows that the population code always produces — and
for every sequence of accepted marker-column edits (old value read from the
table, different from the submitted value, both in the choice editor's
enumeration) each handled by the Active-Row Coordinator, the number of rows
whose marker cell equals "Yes" is exactly 1 after every edit.  Quantifying
over all sequences covers every prefix; the coordinator's crash paths (the
solo-row edge case and the single-alternative demote of C1) abort before
touching any cell, so they too leave the count at 1. -/
theorem marker_exclusivity_invariant (t : Table) (es : List MarkerEdit)
    (hne : t ≠ []) (hl : labels_from 1 t = true)
    (hw : ∀ r ∈ t, 2 ≤ r.cells.length) (hc : countYes t = 1) :
    countYes (apply_edits t es) = 1 :=
  apply_edits_preserves es t hl hw hc

/-- C2 witness: a promote of row 0 followed by a promote of row 1 on the
two-row grid keeps exactly one active row throughout. -/
theorem marker_exclusivity_invariant_witness :
    countYes (apply_edits t_promote [⟨0, "Yes"⟩, ⟨1, "Yes"⟩]) = 1 :=
  marker_exclusivity_invariant t_promote [⟨0, "Yes"⟩, ⟨1, "Yes"⟩]
    (by decide) (by decide) (by decide) (by decide)
